import Mathlib

/-
Verification of the JSON extraction and structured-display core of
`universal_ai_assistant.py`.

The embedding covers:
- `extract_json_from_text` (lines 89-102): strict `json.loads` of the whole
  text, else `re.search` with the fixed pattern
  `\x7b[^\x7b\x7d]*\x7b.*\x7d[^\x7b\x7d]*\x7d|\x7b.*\x7d` under `re.DOTALL`,
  then `json.loads` of the matched substring, else `None`.
- `display_structured_data` / `display_item` (lines 146-186): the traversal
  of a parsed dict into streamlit output calls, modelled as a tree of
  display directives (`st.expander` = a labelled section holding children,
  `st.subheader`, `st.metric`, `st.write` with the exact formatted string,
  `st.error`).

Modelling conventions:
- Python values produced by `json.loads` are the `Json` inductive.  JSON
  numbers without fraction/exponent become `Json.int` (CPython uses `int`);
  other numeric literals (and the `NaN`/`Infinity` constants CPython accepts)
  become `Json.float` carrying the matched literal text verbatim — IEEE-754
  semantics of Python floats are not modelled, and no claim depends on them.
- Strings are Lean `String`s (sequences of Unicode scalar values).  CPython
  keeps lone UTF-16 surrogates from `\uXXXX` escapes inside `str`; such
  code units are not representable in `Char`, so the embedded string parser
  rejects lone surrogates (well-formed surrogate pairs are combined exactly
  as CPython does).  No claim depends on lone surrogates.
- Case operations (`str.title`) are modelled on the ASCII subset: `Char`'s
  `isAlpha`/`toUpper`/`toLower` are ASCII, matching CPython's behaviour on
  ASCII text; CPython's Unicode case tables beyond ASCII are not modelled.
-/

/-- Python value resulting from `json.loads`: dicts keep insertion order as
an association list (a duplicate key overwrites the value but keeps the first
occurrence's position, as CPython dicts do). -/
inductive Json where
  | null
  | bool (b : Bool)
  | int (n : Int)
  | float (lit : String)
  | str (s : String)
  | arr (elems : List Json)
  | obj (entries : List (String × Json))
deriving Repr

/-- Replace each character of a string using `f` (used for Python's
single-character `str.replace`). -/
def strMapChars (f : Char → Char) (s : String) : String :=
  String.mk (s.data.map f)

/-- Python `str.replace('_', ' ')` on a key. -/
def underscoreToSpace (s : String) : String :=
  strMapChars (fun c => if c = '_' then ' ' else c) s

/-- Worker for Python `str.title` restricted to ASCII: the flag records
whether the previous character was a letter; a letter after a non-letter is
uppercased, a letter after a letter is lowercased, other characters pass
through and reset the flag. -/
def pythonTitleGo : Bool → List Char → List Char
  | _, [] => []
  | prevAlpha, c :: rest =>
    if c.isAlpha then
      (if prevAlpha then c.toLower else c.toUpper) :: pythonTitleGo true rest
    else
      c :: pythonTitleGo false rest

/-- Python `str.title` (ASCII subset). -/
def pythonTitle (s : String) : String :=
  String.mk (pythonTitleGo false s.data)

/-- Key humanization used at lines 153 and 173:
`key.replace('_', ' ').title()`. -/
def humanizeKey (key : String) : String :=
  pythonTitle (underscoreToSpace key)

/-- Hexadecimal digit character (lowercase for 10..15), as produced by
Python's `\xNN` escapes in `repr`. -/
def hexChar (n : Nat) : Char :=
  Nat.digitChar n

/-- Escape one character for Python `repr` of a string with the given quote
character.  Control characters beyond the named escapes are written `\xNN`;
printable characters pass through. -/
def pyEscChar (quote : Char) (c : Char) : List Char :=
  if c = '\\' then ['\\', '\\']
  else if c = quote then ['\\', quote]
  else if c = '\n' then ['\\', 'n']
  else if c = '\r' then ['\\', 'r']
  else if c = '\t' then ['\\', 't']
  else if c.toNat < 32 || c.toNat = 127 then
    ['\\', 'x', hexChar (c.toNat / 16), hexChar (c.toNat % 16)]
  else [c]

/-- Python `repr` of a `str`: single quotes by default; double quotes when
the string contains a single quote but no double quote. -/
def pyQuote (s : String) : String :=
  let q : Char := if s.data.contains '\'' && !(s.data.contains '"') then '"' else '\''
  String.mk (q :: (s.data.map (pyEscChar q)).flatten ++ [q])

mutual

/-- Python `repr` of a JSON-shaped value (what `str.format` uses for values
nested inside containers).  For `Json.float` the stored literal stands in
for CPython's float formatting (not modelled; no claim depends on it). -/
def pyRepr : Json → String
  | Json.null => "None"
  | Json.bool b => if b then "True" else "False"
  | Json.int n => toString n
  | Json.float lit => lit
  | Json.str s => pyQuote s
  | Json.arr xs => "[" ++ String.intercalate ", " (pyReprList xs) ++ "]"
  | Json.obj kvs => "\x7b" ++ String.intercalate ", " (pyReprEntries kvs) ++ "\x7d"

/-- `pyRepr` mapped over a list of values. -/
def pyReprList : List Json → List String
  | [] => []
  | x :: xs => pyRepr x :: pyReprList xs

/-- `pyRepr` of each `key: value` entry of a dict. -/
def pyReprEntries : List (String × Json) → List String
  | [] => []
  | (k, v) :: rest => (pyQuote k ++ ": " ++ pyRepr v) :: pyReprEntries rest

end

/-- Python `str` of a JSON-shaped value, as interpolated by an f-string:
strings appear without quotes, containers via `repr` of their parts. -/
def pyStr : Json → String
  | Json.str s => s
  | v => pyRepr v

/-- One unit of streamlit output emitted by the display functions.
`expander` is `st.expander` together with everything rendered inside its
`with` block (the spec's SectionHeader); `subheader` is `st.subheader`;
`metric` is `st.metric` (the spec's MetricLine); `write` is `st.write` with
the exact formatted markdown string (the spec's TextLine / ListLine /
EmptyLine, distinguished by the string's shape); `errorBox` is `st.error`. -/
inductive Directive where
  | expander (label : String) (children : List Directive)
  | subheader (label : String)
  | metric (label : String) (value : Json)
  | write (text : String)
  | errorBox (message : String)
deriving Repr

/-- Whether a directive is a section header produced by `st.expander`. -/
def directiveIsExpander : Directive → Bool
  | Directive.expander _ _ => true
  | _ => false

/-- `display_item` (lines 171-186): dispatch on the value's runtime kind.
Branch order in the source is bool, int/float, list, None-or-empty-string,
fallback; the cases below are disjoint, so the match reproduces it exactly.
A dict value reaches the fallback branch and is interpolated via `str`. -/
def display_item (key : String) (value : Json) : List Directive :=
  let kd := humanizeKey key
  match value with
  | Json.bool b =>
      [Directive.write ("**" ++ kd ++ ":** " ++ (if b then " Yes" else " No"))]
  | Json.int n => [Directive.metric kd (Json.int n)]
  | Json.float lit => [Directive.metric kd (Json.float lit)]
  | Json.arr xs =>
      Directive.write ("**" ++ kd ++ ":**")
        :: xs.map (fun it => Directive.write ("• " ++ pyStr it))
  | Json.null => [Directive.write ("**" ++ kd ++ ":** Not specified")]
  | Json.str s =>
      if s = "" then [Directive.write ("**" ++ kd ++ ":** Not specified")]
      else [Directive.write ("**" ++ kd ++ ":** " ++ s)]
  | Json.obj kvs =>
      [Directive.write ("**" ++ kd ++ ":** " ++ pyStr (Json.obj kvs))]

/-- Directives for the entries of a sub-dict rendered inside an expander
(lines 157-158). -/
def displayEntries (kvs : List (String × Json)) : List Directive :=
  match kvs with
  | [] => []
  | (k, v) :: rest => display_item k v ++ displayEntries rest

/-- Directives for the elements of a top-level list (lines 161-167),
numbering items from 1 as `enumerate(value, 1)` does. -/
def listChildren : Nat → List Json → List Directive
  | _, [] => []
  | i, Json.obj sub :: rest =>
      (Directive.subheader ("Item " ++ toString i) :: displayEntries sub)
        ++ listChildren (i + 1) rest
  | i, item :: rest =>
      Directive.write ("• " ++ pyStr item) :: listChildren (i + 1) rest

/-- Directives for one top-level key/value pair (lines 152-169). -/
def topEntry : String × Json → List Directive
  | (key, Json.obj sub) =>
      [Directive.expander (" " ++ humanizeKey key) (displayEntries sub)]
  | (key, Json.arr xs) =>
      [Directive.expander
        (" " ++ humanizeKey key ++ " (" ++ toString xs.length ++ " items)")
        (listChildren 1 xs)]
  | (key, v) => display_item key v

/-- Directives for all top-level entries, in dict order. -/
def topEntries : List (String × Json) → List Directive
  | [] => []
  | kv :: rest => topEntry kv ++ topEntries rest

/-- `display_structured_data` (lines 146-169).  The guard
`if not data or not isinstance(data, dict)` sends every non-dict value and
the empty dict (falsy) to `st.error("Invalid data format received")` with no
further output, modelled as `Except.error`; otherwise the directives of all
top-level entries are produced. -/
def display_structured_data (data : Json) : Except String (List Directive) :=
  match data with
  | Json.obj [] => Except.error "Invalid data format received"
  | Json.obj kvs => Except.ok (topEntries kvs)
  | _ => Except.error "Invalid data format received"

/-- Whether a value is a dict (Python `isinstance(data, dict)`). -/
def Json.isObjB : Json → Bool
  | Json.obj _ => true
  | _ => false

/-- Whether a value is a non-empty dict (truthy under Python and a dict). -/
def Json.isNonemptyObjB : Json → Bool
  | Json.obj (_ :: _) => true
  | _ => false

/-- Whether an `Except` result is a success. -/
def exceptIsOkB {ε α : Type} : Except ε α → Bool
  | Except.ok _ => true
  | Except.error _ => false

/-
Accumulator-threaded version of the display functions.  The Python code is
imperative: each `st.*` call appends one unit of output to the page (or to
the enclosing expander's body).  The functions below thread that output
buffer explicitly, mirroring the source's loops statement by statement; an
expander's children start from an empty buffer of their own, as a `with
st.expander(...)` block does.  The pure functions above are related to these
by the C10 theorem: the emitted suffix never depends on the buffer already
present (no hidden state).
-/

/-- Bullet lines of `display_item`'s list branch (lines 181-182), threading
the output buffer through the loop. -/
def bulletsAcc : List Directive → List Json → List Directive
  | acc, [] => acc
  | acc, it :: rest => bulletsAcc (acc ++ [Directive.write ("• " ++ pyStr it)]) rest

/-- Buffer-threading `display_item` (lines 171-186). -/
def displayItemAcc (acc : List Directive) (key : String) (value : Json) :
    List Directive :=
  let kd := humanizeKey key
  match value with
  | Json.bool b =>
      acc ++ [Directive.write ("**" ++ kd ++ ":** " ++ (if b then " Yes" else " No"))]
  | Json.int n => acc ++ [Directive.metric kd (Json.int n)]
  | Json.float lit => acc ++ [Directive.metric kd (Json.float lit)]
  | Json.arr xs =>
      bulletsAcc (acc ++ [Directive.write ("**" ++ kd ++ ":**")]) xs
  | Json.null => acc ++ [Directive.write ("**" ++ kd ++ ":** Not specified")]
  | Json.str s =>
      if s = "" then acc ++ [Directive.write ("**" ++ kd ++ ":** Not specified")]
      else acc ++ [Directive.write ("**" ++ kd ++ ":** " ++ s)]
  | Json.obj kvs =>
      acc ++ [Directive.write ("**" ++ kd ++ ":** " ++ pyStr (Json.obj kvs))]

/-- Buffer-threading loop over a sub-dict's entries (lines 157-158). -/
def entriesAcc : List Directive → List (String × Json) → List Directive
  | acc, [] => acc
  | acc, (k, v) :: rest => entriesAcc (displayItemAcc acc k v) rest

/-- Buffer-threading loop over a top-level list's elements (lines 161-167). -/
def listChildrenAcc : List Directive → Nat → List Json → List Directive
  | acc, _, [] => acc
  | acc, i, Json.obj sub :: rest =>
      listChildrenAcc
        (entriesAcc (acc ++ [Directive.subheader ("Item " ++ toString i)]) sub)
        (i + 1) rest
  | acc, i, item :: rest =>
      listChildrenAcc (acc ++ [Directive.write ("• " ++ pyStr item)]) (i + 1) rest

/-- Buffer-threading body for one top-level key/value pair (lines 152-169). -/
def topEntryAcc (acc : List Directive) : String × Json → List Directive
  | (key, Json.obj sub) =>
      acc ++ [Directive.expander (" " ++ humanizeKey key) (entriesAcc [] sub)]
  | (key, Json.arr xs) =>
      acc ++ [Directive.expander
        (" " ++ humanizeKey key ++ " (" ++ toString xs.length ++ " items)")
        (listChildrenAcc [] 1 xs)]
  | (key, v) => displayItemAcc acc key v

/-- Buffer-threading loop over the top-level entries (line 152). -/
def topEntriesAcc : List Directive → List (String × Json) → List Directive
  | acc, [] => acc
  | acc, kv :: rest => topEntriesAcc (topEntryAcc acc kv) rest

/-- Buffer-threading `display_structured_data` (lines 146-169): the invalid
shapes emit the `st.error` box and stop. -/
def displayStructuredDataAcc (data : Json) (acc : List Directive) :
    List Directive :=
  match data with
  | Json.obj [] => acc ++ [Directive.errorBox "Invalid data format received"]
  | Json.obj kvs => topEntriesAcc acc kvs
  | _ => acc ++ [Directive.errorBox "Invalid data format received"]

/-- Everything `display_structured_data` emits to the page, error box
included, as a single stream. -/
def displayedStream (data : Json) : List Directive :=
  match display_structured_data data with
  | Except.ok ds => ds
  | Except.error m => [Directive.errorBox m]

/-
JSON parser: a shallow embedding of CPython's `json.loads` on the feature
set the program exercises (pure-Python scanner semantics: strict strings,
the default whitespace `' \t\n\r'`, the `NaN`/`Infinity`/`-Infinity`
constants, integer vs float classification by presence of fraction or
exponent).  The `fuel` argument bounds recursion depth; `jsonLoads` passes
`4 * length + 4`, which exceeds the call depth any input of that length can
produce (every nesting level consumes at least one character and costs at
most three recursive calls).
-/

/-- Skip JSON whitespace (`[ \t\n\r]*`). -/
def jsonSkipWs : List Char → List Char
  | [] => []
  | c :: rest =>
    if c = ' ' || c = '\t' || c = '\n' || c = '\r' then jsonSkipWs rest
    else c :: rest

/-- Value of a hexadecimal digit character, if it is one (code points 48-57
are `0`-`9`, 97-102 are `a`-`f`, 65-70 are `A`-`F`). -/
def jsonHexDigit (c : Char) : Option Nat :=
  let n := c.toNat
  if 48 ≤ n && n ≤ 57 then some (n - 48)
  else if 97 ≤ n && n ≤ 102 then some (n - 87)
  else if 65 ≤ n && n ≤ 70 then some (n - 55)
  else none

/-- Value of a four-digit hexadecimal escape. -/
def jsonHex4 (a b c d : Char) : Option Nat :=
  match jsonHexDigit a, jsonHexDigit b, jsonHexDigit c, jsonHexDigit d with
  | some x, some y, some z, some w => some (((x * 16 + y) * 16 + z) * 16 + w)
  | _, _, _, _ => none

/-- Single-character string escapes accepted by the strict scanner. -/
def jsonEscChar : Char → Option Char
  | '"' => some '"'
  | '\\' => some '\\'
  | '/' => some '/'
  | 'b' => some (Char.ofNat 8)
  | 'f' => some (Char.ofNat 12)
  | 'n' => some '\n'
  | 'r' => some '\r'
  | 't' => some '\t'
  | _ => none

/-- Parse the body of a JSON string after the opening quote, returning the
decoded characters and the input after the closing quote.  Strict mode:
unescaped control characters are rejected.  `\uXXXX` surrogate pairs are
combined as CPython does; a lone surrogate (which CPython would keep as an
unpaired code unit inside `str`) has no `Char` representation and is
rejected — no claim exercises lone surrogates. -/
def jsonParseStringChars : List Char → Option (List Char × List Char)
  | [] => none
  | '"' :: rest => some ([], rest)
  | '\\' :: 'u' :: a :: b :: c :: d :: rest =>
    (match jsonHex4 a b c d with
     | none => none
     | some n =>
       if 0xD800 ≤ n && n ≤ 0xDBFF then
         match rest with
         | '\\' :: 'u' :: e :: f :: g :: h :: rest2 =>
           (match jsonHex4 e f g h with
            | some m =>
              if 0xDC00 ≤ m && m ≤ 0xDFFF then
                (jsonParseStringChars rest2).map (fun p =>
                  (Char.ofNat (0x10000 + (n - 0xD800) * 0x400 + (m - 0xDC00)) :: p.1, p.2))
              else none
            | none => none)
         | _ => none
       else if 0xDC00 ≤ n && n ≤ 0xDFFF then none
       else (jsonParseStringChars rest).map (fun p => (Char.ofNat n :: p.1, p.2)))
  | '\\' :: e :: rest =>
    (match jsonEscChar e with
     | some ch => (jsonParseStringChars rest).map (fun p => (ch :: p.1, p.2))
     | none => none)
  | c :: rest =>
    if c.toNat < 0x20 then none
    else (jsonParseStringChars rest).map (fun p => (c :: p.1, p.2))

/-- Maximal run of decimal digits at the front of the input. -/
def jsonTakeDigits : List Char → List Char × List Char
  | [] => ([], [])
  | c :: rest =>
    if c.isDigit then
      let (ds, r) := jsonTakeDigits rest
      (c :: ds, r)
    else ([], c :: rest)

/-- Natural number denoted by a list of decimal digit characters. -/
def jsonDigitsToNat (ds : List Char) : Nat :=
  ds.foldl (fun acc c => acc * 10 + (c.toNat - '0'.toNat)) 0

/-- Parse a JSON number at the front of the input, following CPython's
number pattern `(-?(?:0|[1-9]\d+or*))(\.\d+)?([eE][-+]?\d+)?`: the integer
part is `0` or digits without a leading zero; fraction and exponent groups
only count when complete.  Without fraction and exponent the value is a
Python `int`; otherwise a float, kept as the matched literal. -/
def jsonParseNumber (s : List Char) : Option (Json × List Char) :=
  let signAndRest : Bool × List Char :=
    match s with
    | '-' :: t => (true, t)
    | _ => (false, s)
  let neg := signAndRest.1
  match signAndRest.2 with
  | [] => none
  | c :: t =>
    if !c.isDigit then none
    else
      let intAndRest : List Char × List Char :=
        if c = '0' then (['0'], t)
        else
          let (ds, r) := jsonTakeDigits t
          (c :: ds, r)
      let intDigits := intAndRest.1
      let r1 := intAndRest.2
      let fracAndRest : List Char × List Char :=
        match r1 with
        | '.' :: t2 =>
          (match jsonTakeDigits t2 with
           | ([], _) => ([], r1)
           | (ds, r) => ('.' :: ds, r))
        | _ => ([], r1)
      let fracDigits := fracAndRest.1
      let r2 := fracAndRest.2
      let expAndRest : List Char × List Char :=
        match r2 with
        | e :: '+' :: t3 =>
          if e = 'e' || e = 'E' then
            match jsonTakeDigits t3 with
            | ([], _) => ([], r2)
            | (ds, r) => (e :: '+' :: ds, r)
          else ([], r2)
        | e :: '-' :: t3 =>
          if e = 'e' || e = 'E' then
            match jsonTakeDigits t3 with
            | ([], _) => ([], r2)
            | (ds, r) => (e :: '-' :: ds, r)
          else ([], r2)
        | e :: t3 =>
          if e = 'e' || e = 'E' then
            match jsonTakeDigits t3 with
            | ([], _) => ([], r2)
            | (ds, r) => (e :: ds, r)
          else ([], r2)
        | [] => ([], r2)
      let expDigits := expAndRest.1
      let r3 := expAndRest.2
      if fracDigits.isEmpty && expDigits.isEmpty then
        let n : Int := Int.ofNat (jsonDigitsToNat intDigits)
        some (Json.int (if neg then -n else n), r1)
      else
        let lit := (if neg then ['-'] else []) ++ intDigits ++ fracDigits ++ expDigits
        some (Json.float (String.mk lit), r3)

/-- Insert a key/value pair into a dict's entry list the way a CPython dict
assignment does: overwrite the value at an existing key in place, else
append at the end. -/
def jsonObjInsert : List (String × Json) → String → Json → List (String × Json)
  | [], k, v => [(k, v)]
  | (k0, v0) :: rest, k, v =>
    if k0 = k then (k0, v) :: rest
    else (k0, v0) :: jsonObjInsert rest k v

mutual

/-- Parse one JSON value at the front of the input (the scanner's
`scan_once`).  Leading whitespace must already be consumed. -/
def jsonParseValue : Nat → List Char → Option (Json × List Char)
  | 0, _ => none
  | Nat.succ fuel, s =>
    match s with
    | 'n' :: 'u' :: 'l' :: 'l' :: rest => some (Json.null, rest)
    | 't' :: 'r' :: 'u' :: 'e' :: rest => some (Json.bool true, rest)
    | 'f' :: 'a' :: 'l' :: 's' :: 'e' :: rest => some (Json.bool false, rest)
    | 'N' :: 'a' :: 'N' :: rest => some (Json.float "NaN", rest)
    | 'I' :: 'n' :: 'f' :: 'i' :: 'n' :: 'i' :: 't' :: 'y' :: rest =>
      some (Json.float "Infinity", rest)
    | '-' :: 'I' :: 'n' :: 'f' :: 'i' :: 'n' :: 'i' :: 't' :: 'y' :: rest =>
      some (Json.float "-Infinity", rest)
    | '"' :: rest =>
      (jsonParseStringChars rest).map (fun p => (Json.str (String.mk p.1), p.2))
    | '{' :: rest => jsonParseObjBody fuel (jsonSkipWs rest)
    | '[' :: rest => jsonParseArrBody fuel (jsonSkipWs rest)
    | _ => jsonParseNumber s

/-- Parse an object body after `\x7b` and leading whitespace. -/
def jsonParseObjBody : Nat → List Char → Option (Json × List Char)
  | 0, _ => none
  | Nat.succ fuel, s =>
    match s with
    | '}' :: rest => some (Json.obj [], rest)
    | _ => jsonParseMembers fuel s []

/-- Parse the members of a non-empty object: `"key" : value` separated by
commas, whitespace allowed around tokens, closed by `\x7d`. -/
def jsonParseMembers : Nat → List Char → List (String × Json) →
    Option (Json × List Char)
  | 0, _, _ => none
  | Nat.succ fuel, s, acc =>
    match s with
    | '"' :: rest =>
      (match jsonParseStringChars rest with
       | none => none
       | some (kcs, r1) =>
         match jsonSkipWs r1 with
         | ':' :: r2 =>
           (match jsonParseValue fuel (jsonSkipWs r2) with
            | none => none
            | some (v, r3) =>
              let acc2 := jsonObjInsert acc (String.mk kcs) v
              match jsonSkipWs r3 with
              | ',' :: r4 => jsonParseMembers fuel (jsonSkipWs r4) acc2
              | '}' :: r4 => some (Json.obj acc2, r4)
              | _ => none)
         | _ => none)
    | _ => none

/-- Parse an array body after `[` and leading whitespace. -/
def jsonParseArrBody : Nat → List Char → Option (Json × List Char)
  | 0, _ => none
  | Nat.succ fuel, s =>
    match s with
    | ']' :: rest => some (Json.arr [], rest)
    | _ => jsonParseItems fuel s []

/-- Parse the elements of a non-empty array, separated by commas, closed by
`]`. -/
def jsonParseItems : Nat → List Char → List Json → Option (Json × List Char)
  | 0, _, _ => none
  | Nat.succ fuel, s, acc =>
    match jsonParseValue fuel s with
    | none => none
    | some (v, r1) =>
      match jsonSkipWs r1 with
      | ',' :: r2 => jsonParseItems fuel (jsonSkipWs r2) (acc ++ [v])
      | ']' :: r2 => some (Json.arr (acc ++ [v]), r2)
      | _ => none

end

/-- `json.loads`: parse exactly one JSON document, allowing surrounding
whitespace; anything left over is an error ("Extra data"), producing
`none`. -/
def jsonLoads (text : String) : Option Json :=
  match jsonParseValue (4 * text.length + 4) (jsonSkipWs text.data) with
  | some (v, rest) => if jsonSkipWs rest = [] then some v else none
  | none => none

/-
Regex engine for the fixed pattern at line 96,
`\x7b[^\x7b\x7d]*\x7b.*\x7d[^\x7b\x7d]*\x7d|\x7b.*\x7d` with `re.DOTALL`:
a backtracking matcher specialised to sequences of literal characters and
greedy starred character classes, which is all the pattern contains.
`re.search` semantics: positions are tried left to right; at each position
the first alternative is tried with full backtracking, then the second; the
first success wins and `group()` is the matched substring.
-/

/-- One regex element: a literal character, or a greedy star over a
character class (`.` under DOTALL is the always-true class). -/
inductive RegexItem where
  | lit (c : Char)
  | star (cls : Char → Bool)

/-- All ways a greedy star over `cls` can split the input, shortest prefix
first: `(k, rest)` means `k` characters satisfying `cls` were consumed and
`rest` remains. -/
def starSplitsAsc (cls : Char → Bool) : List Char → List (Nat × List Char)
  | [] => [(0, [])]
  | c :: rest =>
    (0, c :: rest) ::
      (if cls c then (starSplitsAsc cls rest).map (fun p => (p.1 + 1, p.2)) else [])

/-- Match a sequence of regex elements at the start of the input, returning
the number of characters consumed.  A star tries its longest split first and
backtracks (greedy matching), exactly as CPython's `re` does. -/
def regexMatchSeq : List RegexItem → List Char → Option Nat
  | [], _ => some 0
  | RegexItem.lit _ :: _, [] => none
  | RegexItem.lit c :: rest, d :: ds =>
    if d = c then (regexMatchSeq rest ds).map (· + 1) else none
  | RegexItem.star cls :: rest, s =>
    ((starSplitsAsc cls s).reverse).findSome? fun p =>
      (regexMatchSeq rest p.2).map (· + p.1)

/-- Character class `[^\x7b\x7d]`. -/
def regexNonBrace (c : Char) : Bool :=
  !(c = '{' || c = '}')

/-- First alternative `\x7b[^\x7b\x7d]*\x7b.*\x7d[^\x7b\x7d]*\x7d`. -/
def jsonPatNested : List RegexItem :=
  [RegexItem.lit '{', RegexItem.star regexNonBrace, RegexItem.lit '{',
   RegexItem.star (fun _ => true), RegexItem.lit '}',
   RegexItem.star regexNonBrace, RegexItem.lit '}']

/-- Second alternative `\x7b.*\x7d`. -/
def jsonPatFlat : List RegexItem :=
  [RegexItem.lit '{', RegexItem.star (fun _ => true), RegexItem.lit '}']

/-- Try the full pattern at one position: first alternative, then second. -/
def regexTryAt (s : List Char) : Option (List Char) :=
  match regexMatchSeq jsonPatNested s with
  | some n => some (s.take n)
  | none =>
    match regexMatchSeq jsonPatFlat s with
    | some n => some (s.take n)
    | none => none

/-- `re.search` for the pattern: scan positions left to right, return the
first match's substring. -/
def regexSearchAux : List Char → Option (List Char)
  | [] => regexTryAt []
  | c :: t =>
    match regexTryAt (c :: t) with
    | some m => some m
    | none => regexSearchAux t

/-- The `re.search(...).group()` of line 96 and 99, as a string. -/
def jsonRegexSearch (text : String) : Option String :=
  (regexSearchAux text.data).map String.mk

/-- `extract_json_from_text` (lines 89-102): strict parse of the whole text;
on failure, parse of the first regex match; `None` when both fail or there
is no match. -/
def extract_json_from_text (text : String) : Option Json :=
  match jsonLoads text with
  | some v => some v
  | none =>
    match jsonRegexSearch text with
    | some m => jsonLoads m
    | none => none

/-
Theorems for the claims, in claim order.
-/

/-- C1: for every string `s` that is valid JSON in its entirety (strict
`json.loads` succeeds with value `v`), `extract_json_from_text s` returns
exactly that value — the fast path, with no heuristic extraction applied. -/
theorem extract_fast_path_returns_strict_parse (s : String) (v : Json)
    (h : jsonLoads s = some v) : extract_json_from_text s = some v := by
  unfold extract_json_from_text
  rw [h]

/-- Witness for C1 at the concrete JSON document `'\x7b"a": 1\x7d'`. -/
theorem extract_fast_path_returns_strict_parse_witness :
    extract_json_from_text "\x7b\"a\": 1\x7d" = some (Json.obj [("a", Json.int 1)]) :=
  extract_fast_path_returns_strict_parse _ _ rfl

/-- C2: when prose is wrapped around a JSON object — the whole text is not
itself valid JSON, the heuristic's first matched `\x7b...\x7d` span is
exactly the object `s`, and `s` parses to `v` — the extractor recovers a
value structurally equal to parsing `s` alone. -/
theorem extract_recovers_prose_wrapped_object (p1 s p2 : String) (v : Json)
    (hwhole : jsonLoads (p1 ++ s ++ p2) = none)
    (hspan : jsonRegexSearch (p1 ++ s ++ p2) = some s)
    (hs : jsonLoads s = some v) :
    extract_json_from_text (p1 ++ s ++ p2) = some v := by
  unfold extract_json_from_text
  rw [hwhole, hspan]
  exact hs

/-- Witness for C2 at `"Sure! " ++ '\x7b"a": 1\x7d' ++ " Hope that helps."`. -/
theorem extract_recovers_prose_wrapped_object_witness :
    extract_json_from_text ("Sure! " ++ "\x7b\"a\": 1\x7d" ++ " Hope that helps.")
      = some (Json.obj [("a", Json.int 1)]) :=
  extract_recovers_prose_wrapped_object "Sure! " "\x7b\"a\": 1\x7d" " Hope that helps."
    (Json.obj [("a", Json.int 1)]) rfl rfl rfl

/-- C3: when the whole text is not valid JSON, the extractor attempts to
parse exactly the one span returned by the regex search and nothing else.
The second part shows this on text holding two independent JSON objects:
the greedy pattern's single (first) match spans from the first brace to the
last one, the later object is never attempted on its own, and here the
attempt on that span fails, so the extractor returns `none`. -/
theorem extract_attempts_only_first_match :
    (∀ t m, jsonLoads t = none → jsonRegexSearch t = some m →
      extract_json_from_text t = jsonLoads m) ∧
    (jsonLoads "\x7b\"a\": 1\x7d and \x7b\"b\": 2\x7d" = none ∧
     jsonRegexSearch "\x7b\"a\": 1\x7d and \x7b\"b\": 2\x7d"
       = some "\x7b\"a\": 1\x7d and \x7b\"b\": 2\x7d" ∧
     extract_json_from_text "\x7b\"a\": 1\x7d and \x7b\"b\": 2\x7d" = none) := by
  constructor
  · intro t m h1 h2
    unfold extract_json_from_text
    rw [h1, h2]
  · exact ⟨rfl, rfl, rfl⟩

/-- Witness for C3: on concrete non-JSON text with a match, the extractor's
result is the parse of that single matched span. -/
theorem extract_attempts_only_first_match_witness :
    extract_json_from_text "a \x7b bad \x7d" = jsonLoads "\x7b bad \x7d" :=
  extract_attempts_only_first_match.1 _ _ rfl rfl

/-- C5: every value whose top-level shape is not a dict is rejected: the
renderer signals the invalid-data error and produces zero directives. -/
theorem render_rejects_non_mapping (v : Json) (h : Json.isObjB v = false) :
    display_structured_data v = Except.error "Invalid data format received" := by
  cases v with
  | obj kvs => simp [Json.isObjB] at h
  | null => rfl
  | bool b => rfl
  | int n => rfl
  | float lit => rfl
  | str s => rfl
  | arr xs => rfl

/-- Witness for C5 at the list `["not", "a", "mapping"]`. -/
theorem render_rejects_non_mapping_witness :
    display_structured_data (Json.arr [Json.str "not", Json.str "a", Json.str "mapping"])
      = Except.error "Invalid data format received" :=
  render_rejects_non_mapping _ rfl

/-- C6: `display_item` maps each scalar to exactly one directive chosen by
kind — booleans to a yes/no text line, numbers to a metric, `None` and the
empty string to the "Not specified" line, any other string to a text line
with the literal string — and the example `\x7b"name":"","done":false\x7d`
renders as the "Not specified" line for Name and the "No" line for Done. -/
theorem display_item_scalar_dispatch :
    (∀ key b, display_item key (Json.bool b)
      = [Directive.write ("**" ++ humanizeKey key ++ ":** "
          ++ (if b then " Yes" else " No"))]) ∧
    (∀ key n, display_item key (Json.int n)
      = [Directive.metric (humanizeKey key) (Json.int n)]) ∧
    (∀ key lit, display_item key (Json.float lit)
      = [Directive.metric (humanizeKey key) (Json.float lit)]) ∧
    (∀ key, display_item key Json.null
      = [Directive.write ("**" ++ humanizeKey key ++ ":** Not specified")]) ∧
    (∀ key, display_item key (Json.str "")
      = [Directive.write ("**" ++ humanizeKey key ++ ":** Not specified")]) ∧
    (∀ key s, s ≠ "" → display_item key (Json.str s)
      = [Directive.write ("**" ++ humanizeKey key ++ ":** " ++ s)]) ∧
    display_structured_data (Json.obj [("name", Json.str ""), ("done", Json.bool false)])
      = Except.ok [Directive.write "**Name:** Not specified",
                   Directive.write "**Done:**  No"] := by
  refine ⟨fun key b => rfl, fun key n => rfl, fun key lit => rfl,
    fun key => rfl, fun key => rfl, ?_, rfl⟩
  intro key s hs
  simp [display_item, hs]

/-- Witness for C6's non-empty-string case at a concrete key and value. -/
theorem display_item_scalar_dispatch_witness :
    display_item "note" (Json.str "hi") = [Directive.write "**Note:** hi"] :=
  display_item_scalar_dispatch.2.2.2.2.2.1 "note" "hi" (by decide)

/-- C7: the empty dict, though a dict, is falsy and rejected with the same
invalid-data error and zero directives; in general the renderer succeeds
exactly on non-empty dicts. -/
theorem render_accepts_iff_nonempty_mapping :
    display_structured_data (Json.obj []) = Except.error "Invalid data format received" ∧
    ∀ v, exceptIsOkB (display_structured_data v) = Json.isNonemptyObjB v := by
  refine ⟨rfl, ?_⟩
  intro v
  cases v with
  | obj kvs =>
    cases kvs with
    | nil => rfl
    | cons kv rest => rfl
  | null => rfl
  | bool b => rfl
  | int n => rfl
  | float lit => rfl
  | str s => rfl
  | arr xs => rfl

/-- C8: the empty string and plain prose both extract to `none`, and in
general whenever the strict parse fails and the parse of any matched span
also fails, the extractor returns `none` with no partial result. -/
theorem extract_failure_returns_none :
    extract_json_from_text "" = none ∧
    extract_json_from_text "not json at all" = none ∧
    ∀ t, jsonLoads t = none →
      (∀ m, jsonRegexSearch t = some m → jsonLoads m = none) →
      extract_json_from_text t = none := by
  refine ⟨rfl, rfl, ?_⟩
  intro t h1 h2
  unfold extract_json_from_text
  rw [h1]
  cases hr : jsonRegexSearch t with
  | none => rfl
  | some m => exact h2 m hr

/-- Witness for C8's general part at concrete text whose matched span is
not valid JSON. -/
theorem extract_failure_returns_none_witness :
    extract_json_from_text "see \x7b oops \x7d here" = none :=
  extract_failure_returns_none.2.2 _ rfl (by
    intro m hm
    rw [show jsonRegexSearch "see \x7b oops \x7d here" = some "\x7b oops \x7d" from rfl] at hm
    cases hm
    rfl)

/-- Counterexample to C4: rendering
`\x7b"plan":\x7b"steps":["a","b"],"duration":5\x7d\x7d` yields, inside the
Plan section, a plain bold "Steps:" text line with bullet lines — produced
by `display_item`'s list branch, which never opens an expander and never
prints an item count — and none of the Plan section's children is a
section header, contradicting the claimed `SectionHeader("Steps", 2)`. -/
theorem render_plan_example_steps_not_a_section :
    display_structured_data (Json.obj [("plan",
        Json.obj [("steps", Json.arr [Json.str "a", Json.str "b"]),
                  ("duration", Json.int 5)])])
      = Except.ok [Directive.expander " Plan"
          [Directive.write "**Steps:**", Directive.write "• a",
           Directive.write "• b", Directive.metric "Duration" (Json.int 5)]] ∧
    ([Directive.write "**Steps:**", Directive.write "• a",
      Directive.write "• b", Directive.metric "Duration" (Json.int 5)].all
        (fun d => !(directiveIsExpander d))) = true :=
  ⟨rfl, rfl⟩

/-- C4 (amended): rendering
`\x7b"plan":\x7b"steps":["a","b"],"duration":5\x7d\x7d` produces exactly a
SectionHeader "Plan" containing a bold "Steps:" list-label line (no item
count — the count-bearing section form applies only to lists met at the top
level) with bullet lines "a" and "b", and MetricLine "Duration" 5. -/
theorem render_plan_example_directives :
    display_structured_data (Json.obj [("plan",
        Json.obj [("steps", Json.arr [Json.str "a", Json.str "b"]),
                  ("duration", Json.int 5)])])
      = Except.ok [Directive.expander " Plan"
          [Directive.write "**Steps:**", Directive.write "• a",
           Directive.write "• b", Directive.metric "Duration" (Json.int 5)]] :=
  rfl

/-- Split a character list at every space (the behaviour of
`String.splitOn " "`): `"a b"` gives `["a", "b"]`, consecutive spaces give
empty words. -/
def splitOnSpace : List Char → List (List Char)
  | [] => [[]]
  | c :: rest =>
    if c = ' ' then [] :: splitOnSpace rest
    else
      match splitOnSpace rest with
      | w :: ws => (c :: w) :: ws
      | [] => [[c]]

/-- Capitalize one word exactly as the C9 sentence reads: first character
uppercased, the rest lowercased. -/
def specCapWord (w : List Char) : List Char :=
  match w with
  | [] => []
  | c :: rest => c.toUpper :: rest.map Char.toLower

/-- Spec-worded humanization: underscore replacement, then per-word
capitalization of the space-separated tokens. -/
def specHumanizeWords (key : String) : String :=
  String.intercalate " "
    ((splitOnSpace (underscoreToSpace key).data).map (fun w => String.mk (specCapWord w)))

mutual

/-- Title-casing by maximal letter runs, at a run boundary: a letter starts
a run uppercased, anything else passes through. -/
def titleRunStart : List Char → List Char
  | [] => []
  | c :: rest =>
    if c.isAlpha then c.toUpper :: titleRunRest rest
    else c :: titleRunStart rest

/-- Title-casing by maximal letter runs, inside a run: a letter continues
the run lowercased, anything else ends it. -/
def titleRunRest : List Char → List Char
  | [] => []
  | c :: rest =>
    if c.isAlpha then c.toLower :: titleRunRest rest
    else c :: titleRunStart rest

end

/-- Humanization as the amended C9 states it: underscores become spaces and
each maximal run of letters is capitalized — first letter uppercased,
following letters lowercased — with any non-letter (space, digit,
punctuation) ending a run. -/
def specHumanizeRuns (key : String) : String :=
  String.mk (titleRunStart (underscoreToSpace key).data)

/-- The flag-threaded `str.title` worker coincides with run-based
title-casing: the flag `false` state is a run boundary, `true` is inside a
run. -/
theorem pythonTitleGo_eq_runs (l : List Char) :
    pythonTitleGo false l = titleRunStart l ∧ pythonTitleGo true l = titleRunRest l := by
  induction l with
  | nil => exact ⟨rfl, rfl⟩
  | cons c rest ih =>
    by_cases h : c.isAlpha <;>
      exact ⟨by simp [pythonTitleGo, titleRunStart, h, ih.1, ih.2],
             by simp [pythonTitleGo, titleRunRest, h, ih.1, ih.2]⟩

/-- Counterexample to C9: on the key `"ab3cd"` the code's label
(`str.title`, which starts a new word after the digit) is `"Ab3Cd"`, while
the claimed rule — title-case capitalization of each space-separated word —
gives `"Ab3cd"`; the two disagree. -/
theorem humanize_digit_boundary_counterexample :
    humanizeKey "ab3cd" = "Ab3Cd" ∧ specHumanizeWords "ab3cd" = "Ab3cd" ∧
    humanizeKey "ab3cd" ≠ specHumanizeWords "ab3cd" :=
  ⟨rfl, rfl, by decide⟩

/-- C9 (amended): for every key, the humanized label replaces underscores
with spaces and capitalizes each maximal run of letters — first letter
uppercased, later letters lowercased, runs ended by any non-letter, so a
letter right after a digit is also capitalized (Python `str.title`
semantics); deterministic under ASCII rules. -/
theorem humanize_is_run_titlecase (key : String) :
    humanizeKey key = specHumanizeRuns key := by
  unfold humanizeKey pythonTitle specHumanizeRuns
  rw [(pythonTitleGo_eq_runs (underscoreToSpace key).data).1]

/-- Bullet emission appends to the buffer exactly the bullet lines. -/
theorem bulletsAcc_eq (xs : List Json) :
    ∀ acc, bulletsAcc acc xs
      = acc ++ xs.map (fun it => Directive.write ("• " ++ pyStr it)) := by
  induction xs with
  | nil => intro acc; simp [bulletsAcc]
  | cons it rest ih => intro acc; simp [bulletsAcc, ih]

/-- `display_item` emission appends exactly the pure `display_item`
directives, whatever the buffer held. -/
theorem displayItemAcc_eq (k : String) (v : Json) (acc : List Directive) :
    displayItemAcc acc k v = acc ++ display_item k v := by
  cases v with
  | arr xs => simp [displayItemAcc, display_item, bulletsAcc_eq]
  | str s =>
    by_cases h : s = "" <;> simp [displayItemAcc, display_item, h]
  | null => rfl
  | bool b => rfl
  | int n => rfl
  | float lit => rfl
  | obj kvs => rfl

/-- Sub-dict entry emission appends exactly the pure entry directives. -/
theorem entriesAcc_eq (kvs : List (String × Json)) :
    ∀ acc, entriesAcc acc kvs = acc ++ displayEntries kvs := by
  induction kvs with
  | nil => intro acc; simp [entriesAcc, displayEntries]
  | cons kv rest ih =>
    intro acc
    obtain ⟨k, v⟩ := kv
    simp [entriesAcc, displayEntries, displayItemAcc_eq, ih]

/-- List element emission appends exactly the pure element directives. -/
theorem listChildrenAcc_eq (xs : List Json) :
    ∀ i acc, listChildrenAcc acc i xs = acc ++ listChildren i xs := by
  induction xs with
  | nil => intro i acc; simp [listChildrenAcc, listChildren]
  | cons item rest ih =>
    intro i acc
    cases item with
    | obj sub => simp [listChildrenAcc, listChildren, entriesAcc_eq, ih]
    | null => simp [listChildrenAcc, listChildren, ih]
    | bool b => simp [listChildrenAcc, listChildren, ih]
    | int n => simp [listChildrenAcc, listChildren, ih]
    | float lit => simp [listChildrenAcc, listChildren, ih]
    | str s => simp [listChildrenAcc, listChildren, ih]
    | arr ys => simp [listChildrenAcc, listChildren, ih]

/-- Top-level pair emission appends exactly the pure pair directives. -/
theorem topEntryAcc_eq (kv : String × Json) (acc : List Directive) :
    topEntryAcc acc kv = acc ++ topEntry kv := by
  obtain ⟨k, v⟩ := kv
  cases v with
  | obj sub => simp [topEntryAcc, topEntry, entriesAcc_eq]
  | arr xs => simp [topEntryAcc, topEntry, listChildrenAcc_eq]
  | null => simp [topEntryAcc, topEntry, displayItemAcc_eq]
  | bool b => simp [topEntryAcc, topEntry, displayItemAcc_eq]
  | int n => simp [topEntryAcc, topEntry, displayItemAcc_eq]
  | float lit => simp [topEntryAcc, topEntry, displayItemAcc_eq]
  | str s => simp [topEntryAcc, topEntry, displayItemAcc_eq]

/-- Top-level loop emission appends exactly the pure top-level directives. -/
theorem topEntriesAcc_eq (kvs : List (String × Json)) :
    ∀ acc, topEntriesAcc acc kvs = acc ++ topEntries kvs := by
  induction kvs with
  | nil => intro acc; simp [topEntriesAcc, topEntries]
  | cons kv rest ih => intro acc; simp [topEntriesAcc, topEntries, topEntryAcc_eq, ih]

/-- The buffer-threading renderer appends to any prior buffer exactly the
stream the pure renderer denotes (directives on success, the error box on
rejection). -/
theorem displayStructuredDataAcc_eq (data : Json) (acc : List Directive) :
    displayStructuredDataAcc data acc = acc ++ displayedStream data := by
  cases data with
  | obj kvs =>
    cases kvs with
    | nil => rfl
    | cons kv rest =>
      simp [displayStructuredDataAcc, displayedStream, display_structured_data,
        topEntriesAcc_eq]
  | null => rfl
  | bool b => rfl
  | int n => rfl
  | float lit => rfl
  | str s => rfl
  | arr xs => rfl

/-- C10: the renderer has no hidden state and is deterministic — the output
the buffer-threading renderer emits past any previously present buffer is
always the same suffix, so two runs on the same value emit identical
directive sequences; and on accepted input that suffix is exactly the pure
function `display_structured_data`'s directive list.  (Input values are
immutable terms in this embedding, so non-mutation of the input is a
property of the model itself.) -/
theorem renderer_pure_no_hidden_state :
    (∀ data acc, displayStructuredDataAcc data acc
        = acc ++ displayStructuredDataAcc data []) ∧
    (∀ data ds, display_structured_data data = Except.ok ds →
        displayStructuredDataAcc data [] = ds) := by
  constructor
  · intro data acc
    rw [displayStructuredDataAcc_eq, displayStructuredDataAcc_eq]
    simp
  · intro data ds h
    rw [displayStructuredDataAcc_eq]
    simp [displayedStream, h]

/-- Witness for C10 at a concrete dict: the buffer-threading renderer run
from the empty page emits exactly the pure renderer's directives. -/
theorem renderer_pure_no_hidden_state_witness :
    displayStructuredDataAcc (Json.obj [("done", Json.bool false)]) []
      = [Directive.write "**Done:**  No"] :=
  renderer_pure_no_hidden_state.2 _ _ rfl
